import Mathlib

/-!
Verification of `src/cfp_crawler/main.py` (WikiCFP call-for-papers crawler).

The Python script is a linear pipeline: resolve the number of listing pages,
scrape each listing page for detail-page URLs, parse each detail page into a
`CFP` record, score it with an external language model, accumulate the
records whose score exceeds 5, and rewrite a CSV file after every page and at
the end of the run.

The shallow embedding below models, faithfully to the source:
  - the data model (`CFP`, `CFPMatchResult`, the flattened CSV record);
  - the prompt construction (`prompt_evaluate` plus the input dictionary
    built in `main`, lines 215-222);
  - `get_total_pages` (lines 86-105), including a character-level model of
    the regular expression `Total of\s+\d+\s+CFPs in\s+(\d+)\s+pages` used
    with `re.search` (the pattern is deterministic: every quantified class
    is disjoint from the token that follows it, so maximal munch at each
    start position, positions tried left to right, is exact);
  - `search_wikicfp_page` (lines 108-121) over the list of anchor `href`
    attributes of the fetched page;
  - `parse_cfp_detail_page` (lines 123-171) over an abstract model of the
    fetched document: for each element the parser inspects, the model
    records whether BeautifulSoup finds it (and it is truthy) and, if so,
    the stripped text (or attribute value) the code would read from it;
  - the accumulation / persistence loop of `main` (lines 204-249) as a
    state machine over pages of per-URL outcomes, where a per-URL outcome
    is either a successful (CFP, verdict) pair or an exception caught by
    the `try/except` of lines 212-237, and the CSV serialization models
    `pandas.DataFrame(...).to_csv(..., index=False)` with its default
    minimal quoting.

Network transport, logging and progress bars are effects outside the model;
the texts fed to the embedded functions stand for whatever the HTTP layer
returned.
-/

/- ~~~ Character and substring machinery (model of the Python `in` operator,
   `str.lower`, and the character classes of the regular expression) ~~~ -/

/-- Model of the Python expression `needle in hay` restricted to a prefix
test: `is_prefix_lc needle hay` is true when `needle` is an initial segment
of `hay`. -/
def is_prefix_lc : List Char → List Char → Bool
  | [], _ => true
  | _ :: _, [] => false
  | a :: as, b :: bs => a == b && is_prefix_lc as bs

/-- `is_infix_lc needle hay` is true when `needle` occurs contiguously
somewhere in `hay`; start positions are tried left to right, as Python
substring containment does. -/
def is_infix_lc (needle : List Char) : List Char → Bool
  | [] => is_prefix_lc needle []
  | b :: bs => is_prefix_lc needle (b :: bs) || is_infix_lc needle bs

/-- Model of the Python expression `needle in hay` on strings. -/
def contains_sub (hay needle : String) : Bool :=
  is_infix_lc needle.toList hay.toList

/-- ASCII lower-casing of one character (the only case mapping relevant to
the header tokens compared by the parser). -/
def lower_char (c : Char) : Char :=
  if 'A' ≤ c ∧ c ≤ 'Z' then Char.ofNat (c.toNat + 32) else c

/-- Model of `str.lower()` as used on header-cell texts. -/
def str_lower (s : String) : String := ⟨s.toList.map lower_char⟩

/- ~~~ Data model (lines 35-52) ~~~ -/

/-- Model of the pydantic class `CFP` (lines 35-42). -/
structure CFP where
  title : String
  acronym : String
  when : String
  where_ : String
  deadline : String
  description : String
deriving DecidableEq

/-- Model of the pydantic class `CFPMatchResult` (lines 44-52): the
structured response of the language model. The `score` field is declared as
a plain `int`; the class carries no range constraint, only a description
text, so any integer the service returns is accepted. -/
structure CFPMatchResult where
  score : Int
  justification : String
deriving DecidableEq

/- ~~~ Evaluation prompt (lines 56-74 and 215-222) ~~~ -/

/-- The input dictionary passed to `chain_evaluate.invoke` in `main`
(lines 215-222): the abstract plus five of the six CFP fields. There is no
`description` key. -/
structure PromptInput where
  abstract : String
  title : String
  acronym : String
  when : String
  where_ : String
  deadline : String
deriving DecidableEq

/-- Construction of the invoke dictionary from the abstract and a parsed
CFP (lines 215-222). -/
def build_prompt_input (abstract : String) (c : CFP) : PromptInput :=
  ⟨abstract, c.title, c.acronym, c.when, c.where_, c.deadline⟩

/-- Model of `prompt_evaluate` (lines 56-74): the fixed template with the
six input variables spliced at their placeholders. This is the text the
chain sends to the language-model service. -/
def prompt_evaluate (i : PromptInput) : String :=
  "\nVous êtes un expert en évaluation de la pertinence des conférences pour un article scientifique.\n\nVoici le résumé de notre travail :\n"
  ++ i.abstract
  ++ "\n\nEt voici les détails de la conférence :\n- Titre : "
  ++ i.title
  ++ "\n- Acronyme : "
  ++ i.acronym
  ++ "\n- Quand : "
  ++ i.when
  ++ "\n- Où : "
  ++ i.where_
  ++ "\n- Date limite : "
  ++ i.deadline
  ++ "\n\nVeuillez évaluer la pertinence de cette conférence pour notre travail sur une échelle de 0 à 10.\nFournissez uniquement un objet JSON avec les clés \"score\" (un entier entre 0 et 10) et \"justification\" (un court texte expliquant votre évaluation).\n"

/- ~~~ get_total_pages (lines 86-105) ~~~ -/

/-- The whitespace class `\s` of the regular expression (ASCII part). -/
def is_py_space (c : Char) : Bool :=
  c == ' ' || c == '\t' || c == '\n' || c == '\r' || c == '\x0b' || c == '\x0c'

/-- The digit class `\d` of the regular expression (ASCII part). -/
def is_py_digit (c : Char) : Bool :=
  '0' ≤ c && c ≤ '9'

/-- Consume one-or-more characters of a class, maximal munch; fails when the
first character is not in the class. Returns the consumed run and the rest. -/
def munch1 (p : Char → Bool) (s : List Char) : Option (List Char × List Char) :=
  match s.span p with
  | (t, r) => if t.isEmpty then none else some (t, r)

/-- Consume a literal, or fail. -/
def match_lit (lit s : List Char) : Option (List Char) :=
  if is_prefix_lc lit s then some (s.drop lit.length) else none

/-- `int(...)` on a run of decimal digits. -/
def digits_to_nat (ds : List Char) : Nat :=
  ds.foldl (fun n c => 10 * n + (c.toNat - 48)) 0

/-- Attempt of the pattern `Total of\s+\d+\s+CFPs in\s+(\d+)\s+pages`
anchored at the start of `s`; on success returns the captured group as a
number. All quantified classes are followed by a disjoint token, so maximal
munch is exactly the backtracking semantics of the Python engine here. -/
def match_total_at (s : List Char) : Option Nat :=
  (match_lit ("Total of").toList s).bind fun s1 =>
  (munch1 is_py_space s1).bind fun t2 =>
  (munch1 is_py_digit t2.2).bind fun t3 =>
  (munch1 is_py_space t3.2).bind fun t4 =>
  (match_lit ("CFPs in").toList t4.2).bind fun s5 =>
  (munch1 is_py_space s5).bind fun t6 =>
  (munch1 is_py_digit t6.2).bind fun t7 =>
  (munch1 is_py_space t7.2).bind fun t8 =>
  (match_lit ("pages").toList t8.2).map fun _ => digits_to_nat t7.1

/-- Model of `re.search(r"Total of\s+\d+\s+CFPs in\s+(\d+)\s+pages", text)`:
the pattern is tried at each start position from the left; the first success
wins. -/
def re_search_total : List Char → Option Nat
  | [] => none
  | c :: rest =>
    match match_total_at (c :: rest) with
    | some n => some n
    | none => re_search_total rest

/-- Model of `get_total_pages` (lines 86-105). The argument is the list of
stripped texts of the center-aligned `td` cells of the fetched listing page,
in document order. The loop skips cells not containing `"Total of"`, returns
the captured page count of the first cell where the regular expression
matches, and falls back to `1` (with a logged warning, an effect outside the
model) when no cell matches. -/
def get_total_pages : List String → Nat
  | [] => 1
  | t :: rest =>
    if contains_sub t "Total of" then
      match re_search_total t.toList with
      | some n => n
      | none => get_total_pages rest
    else get_total_pages rest

/- ~~~ search_wikicfp_page (lines 108-121) ~~~ -/

/-- `base_url` of line 117. -/
def base_url : String := "http://www.wikicfp.com"

/-- The anchor filter of line 118: `lambda href: href and "event.showcfp" in
href`. A missing `href` (`none`) and an empty `href` are both falsy. -/
def href_pred (h : String) : Bool :=
  !h.isEmpty && contains_sub h "event.showcfp"

/-- Model of `search_wikicfp_page` (lines 108-121). The argument is the list
of `href` attributes of the anchor tags of the fetched listing page, in
document order (`none` for an anchor without `href`). Line 119 builds the
set `{base_url + href | ...}`, so the result is a finite set: duplicates
collapse and order is gone. -/
def search_wikicfp_page (anchors : List (Option String)) : Finset String :=
  (((anchors.filterMap id).filter href_pred).map (fun h => base_url ++ h)).toFinset

/- ~~~ parse_cfp_detail_page (lines 123-171) ~~~ -/

/-- One `tr` of a `table class="gglu"`: the stripped text of its first `th`
and of its first `td`, when BeautifulSoup finds them (and they are truthy).
`some t` means the element is present with stripped text `t`; a present but
whitespace-only element yields `some ""`. -/
structure TableRow where
  header : Option String
  cell : Option String
deriving DecidableEq

/-- Abstract model of a fetched detail page: exactly the pieces the parser
inspects. `titleSpan` is the stripped text of the first
`span property="v:description"` when found and truthy; `acronymSpan` is the
first `span property="v:summary"` when found and truthy, with the stripped
value of its `content` attribute when that attribute exists; `ggluTables`
are the rows of each `table class="gglu"` in document order; `cfpDiv` is the
newline-joined, stripped text of the first `div class="cfp"`. -/
structure DetailPage where
  titleSpan : Option String
  acronymSpan : Option (Option String)
  ggluTables : List (List TableRow)
  cfpDiv : Option String
deriving DecidableEq

/-- The three mutable locals of lines 141-157. -/
structure KVState where
  whenV : String
  whereV : String
  deadlineV : String
deriving DecidableEq

/-- Body of the row loop, lines 145-157: rows without a `th` or without a
`td` are skipped; otherwise the lower-cased header text is tested, in order,
for the substrings `"when"`, `"where"`, `"submission deadline"`, and the
matching field (only the first of the three, because of `elif`) is
overwritten with the cell text. -/
def scan_row (acc : KVState) (row : TableRow) : KVState :=
  match row.header with
  | none => acc
  | some h =>
    match row.cell with
    | none => acc
    | some c =>
      let ht := str_lower h
      if contains_sub ht "when" then { acc with whenV := c }
      else if contains_sub ht "where" then { acc with whereV := c }
      else if contains_sub ht "submission deadline" then { acc with deadlineV := c }
      else acc

/-- The table scan of lines 141-157: the two nested `for` loops over the
`gglu` tables and their rows, starting from the three `"N/A"` defaults of
line 141. -/
def parse_kv (p : DetailPage) : KVState :=
  p.ggluTables.foldl (fun acc table => table.foldl scan_row acc) ⟨"N/A", "N/A", "N/A"⟩

/-- Model of `parse_cfp_detail_page` (lines 123-171) on the abstract page
model. Each absent source element yields the sentinel `"N/A"`. -/
def parse_cfp_detail_page (p : DetailPage) : CFP :=
  let title := match p.titleSpan with
    | some t => t
    | none => "N/A"
  let acronym := match p.acronymSpan with
    | some (some c) => c
    | _ => "N/A"
  let description := match p.cfpDiv with
    | some d => d
    | none => "N/A"
  ⟨title, acronym, (parse_kv p).whenV, (parse_kv p).whereV, (parse_kv p).deadlineV, description⟩

/-- All rows of all `gglu` tables of a page, in document order. -/
def rows_of (p : DetailPage) : List TableRow :=
  p.ggluTables.flatten

/-- A row counts for the `when` field when it has a header and a cell and
the lower-cased header contains `"when"`; the value is the cell text. -/
def when_match (r : TableRow) : Option String :=
  match r.header, r.cell with
  | some h, some c => if contains_sub (str_lower h) "when" then some c else none
  | _, _ => none

/-- A row counts for the `where` field when it has a header and a cell and
the lower-cased header contains `"where"` but not `"when"` (the `elif` chain
gives `"when"` priority within a row). -/
def where_match (r : TableRow) : Option String :=
  match r.header, r.cell with
  | some h, some c =>
    if contains_sub (str_lower h) "when" then none
    else if contains_sub (str_lower h) "where" then some c
    else none
  | _, _ => none

/-- A row counts for the `deadline` field when it has a header and a cell
and the lower-cased header contains `"submission deadline"` but neither
`"when"` nor `"where"`. -/
def deadline_match (r : TableRow) : Option String :=
  match r.header, r.cell with
  | some h, some c =>
    if contains_sub (str_lower h) "when" then none
    else if contains_sub (str_lower h) "where" then none
    else if contains_sub (str_lower h) "submission deadline" then some c
    else none
  | _, _ => none

/- ~~~ Result records and CSV serialization (lines 224-232 and 238-247) ~~~ -/

/-- The flattened dictionary appended to `evaluated_results` (lines
224-232): the five display fields of the CFP plus the verdict. -/
structure MatchRecord where
  title : String
  acronym : String
  when : String
  where_ : String
  deadline : String
  score : Int
  justification : String
deriving DecidableEq

/-- Construction of the appended dictionary (lines 224-232). -/
def mk_record (c : CFP) (v : CFPMatchResult) : MatchRecord :=
  ⟨c.title, c.acronym, c.when, c.where_, c.deadline, v.score, v.justification⟩

/-- Minimal CSV quoting test of the pandas writer: a field is quoted when it
contains the delimiter, the quote character, or a line break. -/
def needs_quote (s : String) : Bool :=
  s.toList.any (fun c => c == ',' || c == '"' || c == '\n' || c == '\r')

/-- Double every quote character of a field. -/
def escape_quotes (s : String) : String :=
  String.join (s.toList.map (fun c => if c == '"' then "\"\"" else String.singleton c))

/-- One serialized CSV field under minimal quoting. -/
def csv_field (s : String) : String :=
  if needs_quote s then "\"" ++ escape_quotes s ++ "\"" else s

/-- One serialized data row, in the column order of the dictionary of lines
224-232. -/
def csv_row (r : MatchRecord) : String :=
  String.intercalate ","
    [csv_field r.title, csv_field r.acronym, csv_field r.when, csv_field r.where_,
     csv_field r.deadline, csv_field (toString r.score), csv_field r.justification]
  ++ "\n"

/-- The header row written by `to_csv`, from the DataFrame columns. -/
def csv_header : String :=
  String.intercalate ","
    (["Title", "Acronym", "When", "Where", "Deadline", "Score", "Justification"].map csv_field)
  ++ "\n"

/-- Model of `pandas.DataFrame(rs).to_csv(path, index=False, encoding="utf-8")`
as the full text written to the file: header then one row per record, a
complete serialization of the whole list. -/
def to_csv (rs : List MatchRecord) : String :=
  csv_header ++ String.join (rs.map csv_row)

/- ~~~ The accumulation and persistence loop of main (lines 204-249) ~~~ -/

/-- Outcome of processing one detail URL inside the `try` of lines 212-237:
either the parsed CFP together with the verdict returned by the scoring
chain, or any exception (network, parse, malformed model response), which
the `except` of line 236 catches and logs. -/
inductive ItemOutcome where
  | err : ItemOutcome
  | ok : CFP → CFPMatchResult → ItemOutcome
deriving DecidableEq

/-- Whether an outcome passes the acceptance test of line 223. -/
def accepts (o : ItemOutcome) : Bool :=
  match o with
  | .err => false
  | .ok _ v => decide (5 < v.score)

/-- One iteration of the URL loop (lines 211-237) acting on
`evaluated_results`: an exception leaves the list unchanged; a scored CFP is
appended exactly when `evaluation.score > 5`. -/
def process_url (rs : List MatchRecord) (o : ItemOutcome) : List MatchRecord :=
  match o with
  | .err => rs
  | .ok c v => if 5 < v.score then rs ++ [mk_record c v] else rs

/-- The run state: `evaluated_results`, the content of the output path
(`none` when this run has not written it), and the trace of every content
ever written to the path, in order. -/
structure RunState where
  results : List MatchRecord
  file : Option String
  writes : List String
deriving DecidableEq

/-- One iteration of the page loop (lines 208-242): process every URL of
the page, then, when `evaluated_results` is non-empty, rewrite the whole
output file from the full accumulated list (lines 239-242). -/
def process_page (st : RunState) (page : List ItemOutcome) : RunState :=
  let rs := page.foldl process_url st.results
  if rs.isEmpty then { st with results := rs }
  else { results := rs, file := some (to_csv rs), writes := st.writes ++ [to_csv rs] }

/-- The state at program start: empty accumulation; `f0` is the content the
output path already has from before the run (`none` for no file). -/
def init_state (f0 : Option String) : RunState :=
  ⟨[], f0, []⟩

/-- Model of the loop of `main` (lines 204-249): fold over the pages, then
the final save of lines 244-247, again guarded by non-emptiness of
`evaluated_results` (the empty case only logs a warning, line 249). -/
def main_loop (st0 : RunState) (pages : List (List ItemOutcome)) : RunState :=
  let st := pages.foldl process_page st0
  if st.results.isEmpty then st
  else { results := st.results, file := some (to_csv st.results), writes := st.writes ++ [to_csv st.results] }

/- ~~~ Concrete sample data used by witnesses and counterexamples ~~~ -/

/-- A sample parsed conference (the scenario of the specification). -/
def cfp_ex : CFP :=
  ⟨"Intl. Conf. on Quantum Computing", "ICQC", "Jun 1-5 2026", "Zurich Switzerland",
   "Jan 15 2026", "A conference on quantum computing"⟩

/-- A sample verdict accepted by the threshold. -/
def verdict_ex : CFPMatchResult :=
  ⟨8, "Strong topical overlap"⟩

/-- The same conference with a different description only. -/
def cfp_desc_variant : CFP :=
  { cfp_ex with description := "A completely different description text" }

/-- A detail page whose title `span` is present but whose stripped text is
empty (BeautifulSoup yields exactly this for a whitespace-only span). -/
def c4_page : DetailPage :=
  ⟨some "", none, [], none⟩

/-- A fully populated detail page. -/
def detail_page_ex : DetailPage :=
  ⟨some "Intl. Conf. on Quantum Computing", some (some "ICQC"),
   [[⟨some "When", some "Jun 1-5 2026"⟩, ⟨some "Where", some "Zurich Switzerland"⟩],
    [⟨some "Submission Deadline", some "Jan 15 2026"⟩]],
   some "A conference on quantum computing"⟩

/-- Snapshot invariant of the run state with no pre-existing output file:
every content ever written to the output path is the complete serialization
of a non-empty prefix of the accumulated record list, and the current file
content is the serialization of the current accumulation (absent while the
accumulation is empty). -/
def SnapInv (st : RunState) : Prop :=
  (∀ w ∈ st.writes, ∃ rs : List MatchRecord, rs ≠ [] ∧ rs <+: st.results ∧ w = to_csv rs)
  ∧ (st.results = [] → st.file = none ∧ st.writes = [])
  ∧ (st.results ≠ [] → st.file = some (to_csv st.results))

/- ~~~ Helper lemmas ~~~ -/

theorem is_infix_of_prefix (needle s : List Char) (h : is_prefix_lc needle s = true) :
    is_infix_lc needle s = true := by
  cases s with
  | nil => simpa [is_infix_lc] using h
  | cons b bs => simp [is_infix_lc, h]

theorem match_total_at_prefix (s : List Char) (n : Nat)
    (h : match_total_at s = some n) :
    is_prefix_lc ("Total of").toList s = true := by
  by_cases hp : is_prefix_lc ("Total of").toList s = true
  · exact hp
  · exfalso
    unfold match_total_at match_lit at h
    rw [if_neg hp] at h
    simp at h

theorem re_search_total_infix (s : List Char) (n : Nat)
    (h : re_search_total s = some n) :
    is_infix_lc ("Total of").toList s = true := by
  induction s with
  | nil => simp [re_search_total] at h
  | cons c rest ih =>
    cases hm : match_total_at (c :: rest) with
    | some m =>
      have hp := match_total_at_prefix _ _ hm
      simp [is_infix_lc]
      left
      simpa using hp
    | none =>
      have h2 : re_search_total rest = some n := by
        simpa [re_search_total, hm] using h
      simp [is_infix_lc]
      right
      simpa using ih h2

theorem gtp_skip (t : String) (rest : List String)
    (h : re_search_total t.toList = none) :
    get_total_pages (t :: rest) = get_total_pages rest := by
  have h2 : re_search_total t.data = none := h
  by_cases hc : contains_sub t "Total of" = true
  · simp [get_total_pages, hc, h2]
  · simp [get_total_pages, hc]

theorem last_getD_cons {α : Type} (l : List α) (a d : α) :
    (a :: l).getLast?.getD d = l.getLast?.getD a := by
  induction l generalizing a d with
  | nil => rfl
  | cons b l ih => rw [List.getLast?_cons_cons, ih b d, ih b a]

theorem mem_of_getLast?_eq {α : Type} {l : List α} {a : α}
    (h : l.getLast? = some a) : a ∈ l := by
  induction l with
  | nil => cases h
  | cons b l ih =>
    cases l with
    | nil =>
      simp [List.getLast?] at h
      simp [h]
    | cons c l2 =>
      rw [List.getLast?_cons_cons] at h
      exact List.mem_cons_of_mem b (ih h)

theorem scan_row_when (acc : KVState) (r : TableRow) :
    (scan_row acc r).whenV = (when_match r).getD acc.whenV := by
  rcases r with ⟨h, c⟩
  cases h <;> cases c <;> simp [scan_row, when_match] <;> split_ifs <;> rfl

theorem scan_row_where (acc : KVState) (r : TableRow) :
    (scan_row acc r).whereV = (where_match r).getD acc.whereV := by
  rcases r with ⟨h, c⟩
  cases h <;> cases c <;> simp [scan_row, where_match] <;> split_ifs <;> rfl

theorem scan_row_deadline (acc : KVState) (r : TableRow) :
    (scan_row acc r).deadlineV = (deadline_match r).getD acc.deadlineV := by
  rcases r with ⟨h, c⟩
  cases h <;> cases c <;> simp [scan_row, deadline_match] <;> split_ifs <;> rfl

theorem foldl_last_gen (f : KVState → TableRow → KVState) (g : KVState → String)
    (m : TableRow → Option String)
    (hfg : ∀ acc r, g (f acc r) = (m r).getD (g acc)) :
    ∀ (rows : List TableRow) (acc : KVState),
      g (rows.foldl f acc) = ((rows.filterMap m).getLast?).getD (g acc) := by
  intro rows
  induction rows with
  | nil => intro acc; rfl
  | cons r rows ih =>
    intro acc
    rw [List.foldl_cons, ih (f acc r), hfg acc r, List.filterMap_cons]
    cases hm : m r with
    | none => rfl
    | some b => exact (last_getD_cons (List.filterMap m rows) b (g acc)).symm

theorem parse_kv_flatten (p : DetailPage) :
    parse_kv p = (rows_of p).foldl scan_row ⟨"N/A", "N/A", "N/A"⟩ := by
  rw [rows_of, List.foldl_flatten]
  rfl

theorem parse_when_eq (p : DetailPage) :
    (parse_cfp_detail_page p).when
      = ((rows_of p).filterMap when_match).getLast?.getD "N/A" := by
  have h := foldl_last_gen scan_row (fun s => s.whenV) when_match scan_row_when
    (rows_of p) ⟨"N/A", "N/A", "N/A"⟩
  calc (parse_cfp_detail_page p).when = (parse_kv p).whenV := rfl
    _ = ((rows_of p).foldl scan_row ⟨"N/A", "N/A", "N/A"⟩).whenV := by rw [parse_kv_flatten]
    _ = _ := h

theorem parse_where_eq (p : DetailPage) :
    (parse_cfp_detail_page p).where_
      = ((rows_of p).filterMap where_match).getLast?.getD "N/A" := by
  have h := foldl_last_gen scan_row (fun s => s.whereV) where_match scan_row_where
    (rows_of p) ⟨"N/A", "N/A", "N/A"⟩
  calc (parse_cfp_detail_page p).where_ = (parse_kv p).whereV := rfl
    _ = ((rows_of p).foldl scan_row ⟨"N/A", "N/A", "N/A"⟩).whereV := by rw [parse_kv_flatten]
    _ = _ := h

theorem parse_deadline_eq (p : DetailPage) :
    (parse_cfp_detail_page p).deadline
      = ((rows_of p).filterMap deadline_match).getLast?.getD "N/A" := by
  have h := foldl_last_gen scan_row (fun s => s.deadlineV) deadline_match scan_row_deadline
    (rows_of p) ⟨"N/A", "N/A", "N/A"⟩
  calc (parse_cfp_detail_page p).deadline = (parse_kv p).deadlineV := rfl
    _ = ((rows_of p).foldl scan_row ⟨"N/A", "N/A", "N/A"⟩).deadlineV := by rw [parse_kv_flatten]
    _ = _ := h

theorem when_match_cell (r : TableRow) (c : String)
    (h : when_match r = some c) : r.cell = some c := by
  rcases r with ⟨hh, cc⟩
  cases hh <;> cases cc <;> simp [when_match] at h <;> simp_all

theorem where_match_cell (r : TableRow) (c : String)
    (h : where_match r = some c) : r.cell = some c := by
  rcases r with ⟨hh, cc⟩
  cases hh <;> cases cc <;> simp [where_match] at h <;> simp_all

theorem deadline_match_cell (r : TableRow) (c : String)
    (h : deadline_match r = some c) : r.cell = some c := by
  rcases r with ⟨hh, cc⟩
  cases hh <;> cases cc <;> simp [deadline_match] at h <;> simp_all

theorem process_url_append (rs : List MatchRecord) (o : ItemOutcome) :
    ∃ t, process_url rs o = rs ++ t := by
  cases o with
  | err => exact ⟨[], by simp [process_url]⟩
  | ok c v =>
    by_cases h : 5 < v.score
    · exact ⟨[mk_record c v], by simp [process_url, h]⟩
    · exact ⟨[], by simp [process_url, h]⟩

theorem foldl_process_url_append (page : List ItemOutcome) :
    ∀ rs : List MatchRecord, ∃ t, page.foldl process_url rs = rs ++ t := by
  induction page with
  | nil => exact fun rs => ⟨[], by simp⟩
  | cons o page ih =>
    intro rs
    obtain ⟨u, hu⟩ := process_url_append rs o
    obtain ⟨t, ht⟩ := ih (process_url rs o)
    exact ⟨u ++ t, by rw [List.foldl_cons, ht, hu, List.append_assoc]⟩

theorem process_url_score (rs : List MatchRecord) (o : ItemOutcome) (r : MatchRecord)
    (hmem : r ∈ process_url rs o) : r ∈ rs ∨ 5 < r.score := by
  cases o with
  | err => exact Or.inl hmem
  | ok c v =>
    by_cases h : 5 < v.score
    · simp [process_url, h] at hmem
      rcases hmem with h1 | h2
      · exact Or.inl h1
      · subst h2
        exact Or.inr h
    · simp [process_url, h] at hmem
      exact Or.inl hmem

theorem foldl_process_url_score (page : List ItemOutcome) :
    ∀ rs : List MatchRecord, (∀ r ∈ rs, 5 < r.score) →
      ∀ r ∈ page.foldl process_url rs, 5 < r.score := by
  induction page with
  | nil => intro rs h; simpa using h
  | cons o page ih =>
    intro rs h r hr
    refine ih (process_url rs o) ?_ r hr
    intro x hx
    rcases process_url_score rs o x hx with h1 | h2
    · exact h x h1
    · exact h2

theorem process_url_no_accept (o : ItemOutcome) (h : accepts o = false)
    (rs : List MatchRecord) : process_url rs o = rs := by
  cases o with
  | err => rfl
  | ok c v =>
    have hs : ¬ (5 < v.score) := by simpa [accepts] using h
    simp [process_url, hs]

theorem foldl_no_accept (page : List ItemOutcome)
    (h : ∀ o ∈ page, accepts o = false) :
    ∀ rs : List MatchRecord, page.foldl process_url rs = rs := by
  induction page with
  | nil => intro rs; rfl
  | cons o page ih =>
    intro rs
    rw [List.foldl_cons, process_url_no_accept o (h o (by simp)) rs]
    exact ih (fun x hx => h x (by simp [hx])) rs

theorem snapinv_init : SnapInv (init_state none) := by
  refine ⟨?_, ?_, ?_⟩ <;> simp [init_state, SnapInv]

theorem snapinv_process_page (st : RunState) (page : List ItemOutcome)
    (h : SnapInv st) : SnapInv (process_page st page) := by
  obtain ⟨t, ht⟩ := foldl_process_url_append page st.results
  by_cases he : (page.foldl process_url st.results).isEmpty = true
  · have hnil : page.foldl process_url st.results = [] := List.isEmpty_iff.mp he
    have hres : st.results = [] := (List.append_eq_nil.mp (ht ▸ hnil)).1
    have h2 := h.2.1 hres
    have hpp : process_page st page = { st with results := [] } := by
      simp [process_page, he, hnil]
    rw [hpp]
    refine ⟨?_, ?_, ?_⟩
    · intro w hw
      rw [h2.2] at hw
      cases hw
    · intro _
      exact ⟨h2.1, h2.2⟩
    · intro hc
      cases hc rfl
  · have hne : page.foldl process_url st.results ≠ [] := by
      intro hc
      rw [hc] at he
      exact he rfl
    have hpp : process_page st page =
        ⟨page.foldl process_url st.results,
         some (to_csv (page.foldl process_url st.results)),
         st.writes ++ [to_csv (page.foldl process_url st.results)]⟩ := by
      simp [process_page, he]
    rw [hpp]
    refine ⟨?_, ?_, ?_⟩
    · intro w hw
      rcases List.mem_append.mp hw with hold | hnew
      · obtain ⟨rs0, h0ne, h0pre, h0csv⟩ := h.1 w hold
        exact ⟨rs0, h0ne, h0pre.trans ⟨t, ht.symm⟩, h0csv⟩
      · rw [List.mem_singleton.mp hnew]
        exact ⟨page.foldl process_url st.results, hne, List.prefix_refl _, rfl⟩
    · intro hc
      exact absurd hc hne
    · intro _
      rfl

theorem snapinv_foldl (pages : List (List ItemOutcome)) :
    ∀ st : RunState, SnapInv st → SnapInv (pages.foldl process_page st) := by
  induction pages with
  | nil => exact fun st h => h
  | cons page pages ih =>
    intro st h
    exact ih (process_page st page) (snapinv_process_page st page h)

theorem snapinv_main_loop (st0 : RunState) (pages : List (List ItemOutcome))
    (h : SnapInv st0) : SnapInv (main_loop st0 pages) := by
  have hf := snapinv_foldl pages st0 h
  by_cases he : (pages.foldl process_page st0).results.isEmpty = true
  · have hm : main_loop st0 pages = pages.foldl process_page st0 := by
      simp [main_loop, he]
    rw [hm]
    exact hf
  · have hne : (pages.foldl process_page st0).results ≠ [] := by
      intro hc
      rw [← List.isEmpty_iff] at hc
      exact he hc
    have hm : main_loop st0 pages =
        ⟨(pages.foldl process_page st0).results,
         some (to_csv (pages.foldl process_page st0).results),
         (pages.foldl process_page st0).writes ++ [to_csv (pages.foldl process_page st0).results]⟩ := by
      simp [main_loop, he]
    rw [hm]
    refine ⟨?_, ?_, ?_⟩
    · intro w hw
      rcases List.mem_append.mp hw with hold | hnew
      · exact hf.1 w hold
      · rw [List.mem_singleton.mp hnew]
        exact ⟨(pages.foldl process_page st0).results, hne, List.prefix_refl _, rfl⟩
    · intro hc
      exact absurd hc hne
    · intro _
      rfl

/- ~~~ Claim theorems ~~~ -/

/-- Claim C1: a processed conference is appended to the accumulated
in-memory sequence exactly when the relevance score is strictly greater
than 5; a score of 5 or less leaves the sequence unchanged (as does a
caught per-item exception). -/
theorem c1_score_threshold (rs : List MatchRecord) (c : CFP) (v : CFPMatchResult) :
    (5 < v.score → process_url rs (ItemOutcome.ok c v) = rs ++ [mk_record c v])
    ∧ (v.score ≤ 5 → process_url rs (ItemOutcome.ok c v) = rs)
    ∧ process_url rs ItemOutcome.err = rs := by
  refine ⟨fun h => by simp [process_url, h], fun h => ?_, rfl⟩
  have hs : ¬ (5 < v.score) := by omega
  simp [process_url, hs]

/-- Witness for C1 at concrete scores 8 (appended) and 3 (dropped). -/
theorem c1_score_threshold_witness :
    process_url [] (ItemOutcome.ok cfp_ex verdict_ex) = [mk_record cfp_ex verdict_ex]
    ∧ process_url [] (ItemOutcome.ok cfp_ex ⟨3, "weak match"⟩) = [] :=
  ⟨(c1_score_threshold [] cfp_ex verdict_ex).1 (by decide),
   (c1_score_threshold [] cfp_ex ⟨3, "weak match"⟩).2.1 (by decide)⟩

/-- Claim C3: a per-item exception (caught by the handler of line 236) is a
no-op on the run: the page with the failing URL removed produces the same
page state, so the remaining URLs are still processed, the page is still
flushed, and the whole run produces the same final state. -/
theorem c3_error_isolation :
    (∀ (st : RunState) (pre post : List ItemOutcome),
        process_page st (pre ++ ItemOutcome.err :: post) = process_page st (pre ++ post))
    ∧ (∀ (st0 : RunState) (pages1 : List (List ItemOutcome)) (pre post : List ItemOutcome)
          (pages2 : List (List ItemOutcome)),
        main_loop st0 (pages1 ++ (pre ++ ItemOutcome.err :: post) :: pages2)
          = main_loop st0 (pages1 ++ (pre ++ post) :: pages2)) := by
  have hpage : ∀ (st : RunState) (pre post : List ItemOutcome),
      process_page st (pre ++ ItemOutcome.err :: post) = process_page st (pre ++ post) := by
    intro st pre post
    have hfold : (pre ++ ItemOutcome.err :: post).foldl process_url st.results
        = (pre ++ post).foldl process_url st.results := by
      rw [List.foldl_append, List.foldl_append, List.foldl_cons]
      rfl
    simp [process_page, hfold]
  refine ⟨hpage, ?_⟩
  intro st0 pages1 pre post pages2
  have hf : (pages1 ++ (pre ++ ItemOutcome.err :: post) :: pages2).foldl process_page st0
      = (pages1 ++ (pre ++ post) :: pages2).foldl process_page st0 := by
    rw [List.foldl_append, List.foldl_append, List.foldl_cons, List.foldl_cons, hpage]
  simp [main_loop, hf]

/-- Claim C5: when the cells before `t` produce no regular-expression match
and `t` matches with page count `n`, the resolver returns `n`; when no cell
matches, it returns exactly 1. (The warning on the fallback path is a log
effect outside the pure model; the Lean function is total, mirroring the
fact that the Python loop raises nothing.) -/
theorem c5_total_pages :
    (∀ (pre post : List String) (t : String) (n : Nat),
        (∀ s ∈ pre, re_search_total s.toList = none) →
        re_search_total t.toList = some n →
        get_total_pages (pre ++ t :: post) = n)
    ∧ (∀ tds : List String,
        (∀ s ∈ tds, re_search_total s.toList = none) → get_total_pages tds = 1) := by
  constructor
  · intro pre post t n hpre ht
    induction pre with
    | nil =>
      have hc : contains_sub t "Total of" = true := re_search_total_infix t.toList n ht
      have h2 : re_search_total t.data = some n := ht
      simp [get_total_pages, hc, h2]
    | cons s pre ih =>
      rw [List.cons_append, gtp_skip s (pre ++ t :: post) (hpre s (by simp))]
      exact ih (fun x hx => hpre x (by simp [hx]))
  · intro tds h
    induction tds with
    | nil => rfl
    | cons s rest ih =>
      rw [gtp_skip s rest (h s (by simp))]
      exact ih (fun x hx => h x (by simp [hx]))

/-- Witness for C5: the example phrase of the specification yields 2, and a
page without the phrase yields 1. -/
theorem c5_total_pages_witness :
    get_total_pages ["Total of 23 CFPs in 2 pages"] = 2
    ∧ get_total_pages ["no count phrase here"] = 1 :=
  ⟨c5_total_pages.1 [] [] "Total of 23 CFPs in 2 pages" 2 (by simp) (by decide),
   c5_total_pages.2 ["no count phrase here"] (by decide)⟩

/-- Claim C6: each of the three key-value fields returned by the detail
parser equals the cell text of the last row matching that field, where a
row matches a field when its header and cell exist and the lower-cased
header contains the field token as a substring, earlier tokens of the
`elif` chain taking priority within a row; `"N/A"` when no row matches. -/
theorem c6_last_match_wins (p : DetailPage) :
    (parse_cfp_detail_page p).when
        = ((rows_of p).filterMap when_match).getLast?.getD "N/A"
    ∧ (parse_cfp_detail_page p).where_
        = ((rows_of p).filterMap where_match).getLast?.getD "N/A"
    ∧ (parse_cfp_detail_page p).deadline
        = ((rows_of p).filterMap deadline_match).getLast?.getD "N/A" :=
  ⟨parse_when_eq p, parse_where_eq p, parse_deadline_eq p⟩

/-- Claim C7: the prompt input and the rendered prompt are built from the
abstract and the five display fields only; two CFPs differing only in their
description produce identical input for the language-model service. -/
theorem c7_description_unused (a : String) (c1 c2 : CFP)
    (h1 : c1.title = c2.title) (h2 : c1.acronym = c2.acronym)
    (h3 : c1.when = c2.when) (h4 : c1.where_ = c2.where_)
    (h5 : c1.deadline = c2.deadline) :
    build_prompt_input a c1 = build_prompt_input a c2
    ∧ prompt_evaluate (build_prompt_input a c1)
        = prompt_evaluate (build_prompt_input a c2) := by
  have h : build_prompt_input a c1 = build_prompt_input a c2 := by
    simp [build_prompt_input, h1, h2, h3, h4, h5]
  exact ⟨h, by rw [h]⟩

/-- Witness for C7: two concrete CFPs with different descriptions and equal
display fields give the same rendered prompt. -/
theorem c7_description_unused_witness :
    cfp_ex.description ≠ cfp_desc_variant.description
    ∧ prompt_evaluate (build_prompt_input "Quantum error correction using stabilizer codes" cfp_ex)
        = prompt_evaluate (build_prompt_input "Quantum error correction using stabilizer codes" cfp_desc_variant) :=
  ⟨by decide,
   (c7_description_unused "Quantum error correction using stabilizer codes"
      cfp_ex cfp_desc_variant rfl rfl rfl rfl rfl).2⟩

/-- Claim C2: every content written to the output path during a run is the
complete serialization (fixed header line, then one row per record) of a
non-empty prefix of the final accumulated sequence — the full accumulation
at the moment of the write, rewritten from scratch; the file content, when
the accumulation is non-empty, is the serialization of the whole current
accumulation, and no write happens while the accumulation is empty. -/
theorem c2_snapshot (pages : List (List ItemOutcome)) :
    (∀ w ∈ (main_loop (init_state none) pages).writes,
        ∃ rs : List MatchRecord, rs ≠ []
          ∧ rs <+: (main_loop (init_state none) pages).results
          ∧ w = to_csv rs
          ∧ w = "Title,Acronym,When,Where,Deadline,Score,Justification\n"
              ++ String.join (rs.map csv_row))
    ∧ ((main_loop (init_state none) pages).results = []
        → (main_loop (init_state none) pages).file = none
          ∧ (main_loop (init_state none) pages).writes = [])
    ∧ ((main_loop (init_state none) pages).results ≠ []
        → (main_loop (init_state none) pages).file
            = some (to_csv (main_loop (init_state none) pages).results)) := by
  have hinv := snapinv_main_loop (init_state none) pages snapinv_init
  have hhdr : csv_header = "Title,Acronym,When,Where,Deadline,Score,Justification\n" := by
    decide
  refine ⟨?_, hinv.2.1, hinv.2.2⟩
  intro w hw
  obtain ⟨rs, hne, hpre, hcsv⟩ := hinv.1 w hw
  refine ⟨rs, hne, hpre, hcsv, ?_⟩
  rw [hcsv, to_csv, hhdr]

/-- Witness for C2: after a run accepting one conference, the file holds
the serialization of the accumulated sequence. -/
theorem c2_snapshot_witness :
    (main_loop (init_state none) [[ItemOutcome.ok cfp_ex verdict_ex]]).file
      = some (to_csv (main_loop (init_state none) [[ItemOutcome.ok cfp_ex verdict_ex]]).results) :=
  (c2_snapshot [[ItemOutcome.ok cfp_ex verdict_ex]]).2.2 (by decide)

/-- Counterexample to C4: a detail page whose title span is present but has
empty stripped text (a whitespace-only span) yields an empty-string title,
not the sentinel, so not every field of the returned CFP is non-empty. -/
theorem c4_counterexample :
    c4_page.titleSpan = some "" ∧ (parse_cfp_detail_page c4_page).title = "" :=
  ⟨rfl, by decide⟩

/-- Claim C4 amended: every absent source element yields the sentinel
`"N/A"` and the parser is total (it is a Lean function), but a field is
guaranteed non-empty only when every present source element carries
non-empty stripped text; a present element with empty stripped text is
copied verbatim as `""`. -/
theorem c4_missing_fields (p : DetailPage) :
    (p.titleSpan = none → (parse_cfp_detail_page p).title = "N/A")
    ∧ ((p.acronymSpan = none ∨ p.acronymSpan = some none)
        → (parse_cfp_detail_page p).acronym = "N/A")
    ∧ ((rows_of p).filterMap when_match = [] → (parse_cfp_detail_page p).when = "N/A")
    ∧ ((rows_of p).filterMap where_match = [] → (parse_cfp_detail_page p).where_ = "N/A")
    ∧ ((rows_of p).filterMap deadline_match = [] → (parse_cfp_detail_page p).deadline = "N/A")
    ∧ (p.cfpDiv = none → (parse_cfp_detail_page p).description = "N/A")
    ∧ (p.titleSpan ≠ some "" → p.acronymSpan ≠ some (some "")
        → (∀ r ∈ rows_of p, r.cell ≠ some "") → p.cfpDiv ≠ some ""
        → (parse_cfp_detail_page p).title ≠ ""
          ∧ (parse_cfp_detail_page p).acronym ≠ ""
          ∧ (parse_cfp_detail_page p).when ≠ ""
          ∧ (parse_cfp_detail_page p).where_ ≠ ""
          ∧ (parse_cfp_detail_page p).deadline ≠ ""
          ∧ (parse_cfp_detail_page p).description ≠ "") := by
  refine ⟨?_, ?_, ?_, ?_, ?_, ?_, ?_⟩
  · intro h
    simp [parse_cfp_detail_page, h]
  · intro h
    rcases h with h | h <;> simp [parse_cfp_detail_page, h]
  · intro h
    rw [parse_when_eq, h]
    rfl
  · intro h
    rw [parse_where_eq, h]
    rfl
  · intro h
    rw [parse_deadline_eq, h]
    rfl
  · intro h
    simp [parse_cfp_detail_page, h]
  · intro h1 h2 h3 h4
    refine ⟨?_, ?_, ?_, ?_, ?_, ?_⟩
    · cases hts : p.titleSpan with
      | none =>
        have e : (parse_cfp_detail_page p).title = "N/A" := by
          simp [parse_cfp_detail_page, hts]
        rw [e]
        decide
      | some t =>
        have e : (parse_cfp_detail_page p).title = t := by
          simp [parse_cfp_detail_page, hts]
        rw [e]
        intro he
        exact h1 (he ▸ hts)
    · cases hac : p.acronymSpan with
      | none =>
        have e : (parse_cfp_detail_page p).acronym = "N/A" := by
          simp [parse_cfp_detail_page, hac]
        rw [e]
        decide
      | some o =>
        cases o with
        | none =>
          have e : (parse_cfp_detail_page p).acronym = "N/A" := by
            simp [parse_cfp_detail_page, hac]
          rw [e]
          decide
        | some a =>
          have e : (parse_cfp_detail_page p).acronym = a := by
            simp [parse_cfp_detail_page, hac]
          rw [e]
          intro he
          exact h2 (he ▸ hac)
    · rw [parse_when_eq]
      cases hlast : ((rows_of p).filterMap when_match).getLast? with
      | none => decide
      | some cc =>
        obtain ⟨r, hr, hm⟩ := List.mem_filterMap.mp (mem_of_getLast?_eq hlast)
        have hcell := when_match_cell r cc hm
        rw [Option.getD_some]
        intro he
        exact h3 r hr (he ▸ hcell)
    · rw [parse_where_eq]
      cases hlast : ((rows_of p).filterMap where_match).getLast? with
      | none => decide
      | some cc =>
        obtain ⟨r, hr, hm⟩ := List.mem_filterMap.mp (mem_of_getLast?_eq hlast)
        have hcell := where_match_cell r cc hm
        rw [Option.getD_some]
        intro he
        exact h3 r hr (he ▸ hcell)
    · rw [parse_deadline_eq]
      cases hlast : ((rows_of p).filterMap deadline_match).getLast? with
      | none => decide
      | some cc =>
        obtain ⟨r, hr, hm⟩ := List.mem_filterMap.mp (mem_of_getLast?_eq hlast)
        have hcell := deadline_match_cell r cc hm
        rw [Option.getD_some]
        intro he
        exact h3 r hr (he ▸ hcell)
    · cases hdv : p.cfpDiv with
      | none =>
        have e : (parse_cfp_detail_page p).description = "N/A" := by
          simp [parse_cfp_detail_page, hdv]
        rw [e]
        decide
      | some d =>
        have e : (parse_cfp_detail_page p).description = d := by
          simp [parse_cfp_detail_page, hdv]
        rw [e]
        intro he
        exact h4 (he ▸ hdv)

/-- Witness for C4 amended: on a fully populated page with non-empty
source texts, all six fields are non-empty. -/
theorem c4_missing_fields_witness :
    (parse_cfp_detail_page detail_page_ex).title ≠ ""
    ∧ (parse_cfp_detail_page detail_page_ex).acronym ≠ ""
    ∧ (parse_cfp_detail_page detail_page_ex).when ≠ ""
    ∧ (parse_cfp_detail_page detail_page_ex).where_ ≠ ""
    ∧ (parse_cfp_detail_page detail_page_ex).deadline ≠ ""
    ∧ (parse_cfp_detail_page detail_page_ex).description ≠ "" :=
  (c4_missing_fields detail_page_ex).2.2.2.2.2.2
    (by decide) (by decide) (by decide) (by decide)

theorem contains_event_nonempty (h : String)
    (hc : contains_sub h "event.showcfp" = true) : h.isEmpty = false := by
  cases hie : h.isEmpty with
  | false => rfl
  | true =>
    have he : h = "" := (String.isEmpty_iff h).mp hie
    rw [he] at hc
    exact absurd hc (by decide)

/-- Claim C8: membership in the result of the listing scraper is exactly
existence of an anchor whose link target contains the marker token, the
result element being the base URL concatenated with that target; the result
is a set, so it is invariant under permutation of the anchors and under
duplication of the anchor list. -/
theorem c8_listing_set (anchors : List (Option String)) :
    (∀ u : String, u ∈ search_wikicfp_page anchors
        ↔ ∃ h : String, some h ∈ anchors
            ∧ contains_sub h "event.showcfp" = true
            ∧ u = base_url ++ h)
    ∧ (∀ anchors2 : List (Option String), anchors.Perm anchors2
        → search_wikicfp_page anchors = search_wikicfp_page anchors2)
    ∧ search_wikicfp_page (anchors ++ anchors) = search_wikicfp_page anchors := by
  refine ⟨?_, ?_, ?_⟩
  · intro u
    constructor
    · intro hu
      rw [search_wikicfp_page, List.mem_toFinset] at hu
      obtain ⟨h, hh, he⟩ := List.mem_map.mp hu
      have hf := List.mem_filter.mp hh
      obtain ⟨a, ha, hid⟩ := List.mem_filterMap.mp hf.1
      have hpred := hf.2
      have hcontains : contains_sub h "event.showcfp" = true := by
        simp [href_pred] at hpred
        exact hpred.2
      have haeq : a = some h := by simpa using hid
      exact ⟨h, haeq ▸ ha, hcontains, he.symm⟩
    · rintro ⟨h, hmem, hcontains, rfl⟩
      rw [search_wikicfp_page, List.mem_toFinset]
      refine List.mem_map.mpr ⟨h, ?_, rfl⟩
      refine List.mem_filter.mpr ⟨?_, ?_⟩
      · exact List.mem_filterMap.mpr ⟨some h, hmem, rfl⟩
      · have hne := contains_event_nonempty h hcontains
        simp [href_pred, hne, hcontains]
  · intro anchors2 hp
    exact List.toFinset_eq_of_perm _ _
      (((hp.filterMap id).filter href_pred).map (fun h => base_url ++ h))
  · rw [search_wikicfp_page, search_wikicfp_page, List.filterMap_append,
      List.filter_append, List.map_append, List.toFinset_append, Finset.union_self]

/-- Witness for C8: reordering the anchors of a page leaves the URL set
unchanged. -/
theorem c8_listing_set_witness :
    search_wikicfp_page [some "/cfp/servlet/event.showcfp?eventid=1", none]
      = search_wikicfp_page [none, some "/cfp/servlet/event.showcfp?eventid=1"] :=
  (c8_listing_set [some "/cfp/servlet/event.showcfp?eventid=1", none]).2.1
    [none, some "/cfp/servlet/event.showcfp?eventid=1"] (by decide)

/-- Counterexample to C9: the code performs no upper-bound validation of the
score, so a service response with score 11 produces a record with score
above 10 inside the accumulated sequence (and hence the output file). -/
theorem c9_counterexample :
    ∃ r ∈ (main_loop (init_state none)
        [[ItemOutcome.ok cfp_ex ⟨11, "out of range score"⟩]]).results,
      10 < r.score := by
  decide

/-- Claim C9 amended: every record that enters the accumulated sequence has
score strictly greater than 5 (so in particular never below 0), but no
upper bound is enforced: the threshold of line 223 is the only validation
applied to the score the service returns. -/
theorem c9_accepted_scores (f0 : Option String) (pages : List (List ItemOutcome)) :
    ∀ r ∈ (main_loop (init_state f0) pages).results, 5 < r.score := by
  have hfold : ∀ pgs : List (List ItemOutcome), ∀ st : RunState,
      (∀ r ∈ st.results, 5 < r.score) →
      ∀ r ∈ (pgs.foldl process_page st).results, 5 < r.score := by
    intro pgs
    induction pgs with
    | nil => exact fun st h => h
    | cons page pgs ih =>
      intro st h
      refine ih (process_page st page) ?_
      have hres : (process_page st page).results
          = page.foldl process_url st.results := by
        by_cases he : (page.foldl process_url st.results).isEmpty = true <;>
          simp [process_page, he]
      rw [hres]
      exact foldl_process_url_score page st.results h
  have hmain : (main_loop (init_state f0) pages).results
      = (pages.foldl process_page (init_state f0)).results := by
    by_cases he : ((pages.foldl process_page (init_state f0)).results).isEmpty = true <;>
      simp [main_loop, he]
  rw [hmain]
  exact hfold pages (init_state f0) (by simp [init_state])

/-- Witness for C9 amended: the record accepted in a concrete run has score
above 5. -/
theorem c9_accepted_scores_witness :
    5 < (mk_record cfp_ex verdict_ex).score :=
  c9_accepted_scores none [[ItemOutcome.ok cfp_ex verdict_ex]]
    (mk_record cfp_ex verdict_ex) (by decide)

/-- Claim C10: when no conference of the run is accepted, the run state is
left exactly as it started: no write ever happens (the write trace stays
empty) and the content already at the output path is untouched. -/
theorem c10_no_write (f0 : Option String) (pages : List (List ItemOutcome))
    (h : ∀ page ∈ pages, ∀ o ∈ page, accepts o = false) :
    main_loop (init_state f0) pages = init_state f0 := by
  have hfold : pages.foldl process_page (init_state f0) = init_state f0 := by
    induction pages with
    | nil => rfl
    | cons page pgs ih =>
      rw [List.foldl_cons]
      have h1 : process_page (init_state f0) page = init_state f0 := by
        have hf : page.foldl process_url ([] : List MatchRecord) = [] :=
          foldl_no_accept page (h page (by simp)) []
        simp [process_page, init_state, hf]
      rw [h1]
      exact ih (fun pg hpg => h pg (by simp [hpg]))
  simp only [main_loop]
  rw [hfold]
  simp [init_state]

/-- Witness for C10: a run whose items are an exception, a score-3 item and
a score-5 item leaves a pre-existing output file byte-for-byte unchanged
and performs no write. -/
theorem c10_no_write_witness :
    main_loop (init_state (some "previous file content"))
      [[ItemOutcome.err, ItemOutcome.ok cfp_ex ⟨3, "weak"⟩],
       [ItemOutcome.ok cfp_ex ⟨5, "borderline"⟩]]
      = init_state (some "previous file content") :=
  c10_no_write (some "previous file content")
    [[ItemOutcome.err, ItemOutcome.ok cfp_ex ⟨3, "weak"⟩],
     [ItemOutcome.ok cfp_ex ⟨5, "borderline"⟩]]
    (by decide)
